import Mathlib

/-! The `/add` bid service (`src/main.go`).

A shallow embedding of the Go program: the float64 addition performed by
`addService.Add`, the logging middleware, the request handler, the error
adapter `makeHandler` and `writeJSON`, over an explicit world state holding
the identifier source, the random source, the clock and the log.
-/

set_option maxRecDepth 8000
set_option exponentiation.threshold 4000

namespace AddSvc

/-! ## float64 -/

/-- A float64 value.  Every finite double is an integer multiple of `2^-1074`;
`fin neg u` is the double of magnitude `u * 2^-1074` with sign bit `neg`. -/
inductive Float64 where
  | fin (neg : Bool) (units : Nat)
  | inf (neg : Bool)
  | nan
  deriving DecidableEq, Repr

/-- Number of significant bits of `s`, by repeated halving; `fuel` bounds the
number of halvings. -/
def bitLengthAux : Nat → Nat → Nat
  | 0, _ => 0
  | fuel + 1, s => if s = 0 then 0 else bitLengthAux fuel (s / 2) + 1

/-- Number of significant bits of a magnitude (`s` halvings always suffice). -/
def bitLength (s : Nat) : Nat := bitLengthAux s s

/-- Round a magnitude (in units of `2^-1074`) to 53 significant bits, to
nearest, ties to even: the rounding of every float64 arithmetic result. -/
def roundUnits (s : Nat) : Nat :=
  let sh := bitLength s - 53
  let q := s / 2 ^ sh
  let r := s % 2 ^ sh
  if 2 * r < 2 ^ sh then q * 2 ^ sh
  else if 2 ^ sh < 2 * r then (q + 1) * 2 ^ sh
  else if q % 2 = 0 then q * 2 ^ sh
  else (q + 1) * 2 ^ sh

/-- The float64 nearest to an exact magnitude; a rounded magnitude of `2^1024`
(`2^2098` units) or more overflows to infinity. -/
def ofExact (neg : Bool) (s : Nat) : Float64 :=
  let r := roundUnits s
  if 2 ^ 2098 ≤ r then Float64.inf neg else Float64.fin neg r

/-- The float64 addition `a + b` (IEEE 754, round to nearest even). -/
def fadd : Float64 → Float64 → Float64
  | Float64.nan, _ => Float64.nan
  | _, Float64.nan => Float64.nan
  | Float64.inf s, Float64.inf t => if s = t then Float64.inf s else Float64.nan
  | Float64.inf s, Float64.fin _ _ => Float64.inf s
  | Float64.fin _ _, Float64.inf t => Float64.inf t
  | Float64.fin sa a, Float64.fin sb b =>
    if sa = sb then ofExact sa (a + b)
    else if a = b then Float64.fin false 0
    else if b < a then ofExact sa (a - b)
    else ofExact sb (b - a)

/-- The position of a float64 on the number line, in units of `2^-1074`, for
comparisons; `nan` has none. -/
def Float64.key : Float64 → Option Int
  | Float64.fin false u => some (u : Int)
  | Float64.fin true u => some (-(u : Int))
  | Float64.inf false => some (2 ^ 2098 : Int)
  | Float64.inf true => some (-(2 ^ 2098 : Int))
  | Float64.nan => none

/-- The Go comparison `a <= b` on float64 (false when either side is NaN). -/
def fle (a b : Float64) : Bool :=
  match a.key, b.key with
  | some x, some y => decide (x ≤ y)
  | _, _ => false

/-- The Go comparison `a < b` on float64 (false when either side is NaN). -/
def flt (a b : Float64) : Bool :=
  match a.key, b.key with
  | some x, some y => decide (x < y)
  | _, _ => false

/-- Whether a float64 is neither NaN nor infinite. -/
def Float64.isFinite : Float64 → Bool
  | Float64.fin _ _ => true
  | _ => false

/-- The float64 `0`. -/
def f0 : Float64 := Float64.fin false 0

/-- The float64 `1`. -/
def f1 : Float64 := Float64.fin false (2 ^ 1074)

/-- The float64 constant `69.69` of `addService.Add`: the double nearest to
69.69, `4903997781741404 * 2^-46`. -/
def c6969 : Float64 := Float64.fin false (4903997781741404 * 2 ^ 1028)

/-- The float64 constant `70.69`: the double nearest to 70.69,
`4974366525919068 * 2^-46`. -/
def c7069 : Float64 := Float64.fin false (4974366525919068 * 2 ^ 1028)

/-- The largest float64 below 1, `1 - 2^-53`: the largest value
`rand.Float64` returns. -/
def maxDraw : Float64 := Float64.fin false (2 ^ 1074 - 2 ^ 1021)

/-! ## Identifiers, errors, log events -/

/-- A `uuid.UUID` (`[16]byte`), as the 128-bit number its bytes spell, most
significant byte first. -/
structure UUID where
  val : Nat
  isLt : val < 2 ^ 128
  deriving DecidableEq, Repr

/-- The UUID with a given number below `2^128` (reduced modulo `2^128`). -/
def UUID.ofNat (n : Nat) : UUID := ⟨n % 2 ^ 128, Nat.mod_lt _ (Nat.two_pow_pos 128)⟩

/-- One lower-case hexadecimal digit. -/
def hexDigit (d : Nat) : Char :=
  if d < 10 then Char.ofNat (48 + d) else Char.ofNat (87 + d)

/-- The `i`-th of the 32 hexadecimal digits of a UUID, most significant first. -/
def UUID.nibble (u : UUID) (i : Nat) : Nat := (u.val / 16 ^ (31 - i)) % 16

/-- The character at position `j` of the 36-character text form
`xxxxxxxx-xxxx-xxxx-xxxx-xxxxxxxxxxxx`. -/
def UUID.charAt (u : UUID) (j : Nat) : Char :=
  if j = 8 ∨ j = 13 ∨ j = 18 ∨ j = 23 then '-'
  else if j < 8 then hexDigit (u.nibble j)
  else if j < 13 then hexDigit (u.nibble (j - 1))
  else if j < 18 then hexDigit (u.nibble (j - 2))
  else if j < 23 then hexDigit (u.nibble (j - 3))
  else hexDigit (u.nibble (j - 4))

/-- The text form of a UUID, `UUID.String()`, which `MarshalText` hands to
`encoding/json`. -/
def UUID.String (u : UUID) : String := String.mk ((List.range 36).map u.charAt)

/-- A non-nil Go `error`, by the text of `Error()`; the nil error is `none`. -/
structure Error where
  msg : String
  deriving DecidableEq, Repr

/-- Level of a `slog` record. -/
inductive Level where
  | info
  | error
  deriving DecidableEq, Repr

/-- The value of one attribute of a `slog` record. -/
inductive AttrValue where
  | uuid (u : UUID)
  | float (f : Float64)
  | err (e : Option Error)
  | duration (d : Int)
  | str (s : String)
  deriving DecidableEq, Repr

/-- One record emitted through the default `slog` logger. -/
structure LogEvent where
  level : Level
  msg : String
  attrs : List (String × AttrValue)
  deriving DecidableEq, Repr

/-- One entry of the ghost call record: a call of a probed `AddService.Add`
with its argument, or a call of a probed `APIfunc` with the path it was given. -/
inductive Call where
  | add (id : UUID)
  | api (path : String)
  deriving DecidableEq, Repr

/-! ## The world outside the program text -/

/-- Process state that `main.go` reads and writes through its imports.
`uuidSrc`, `randSrc` and `clockSrc` are the values that successive calls of
`uuid.New`, `rand.Float64` and `time.Now` yield (the clock in nanoseconds);
the counters say how many have been consumed.  `log` is the output of the
default `slog` logger, oldest first.  `bidPrice` and `err` stand for what the
identifiers `bidPrice` and `err` inside `loggingMiddleware.Add` refer to:
that function declares neither (its results are unnamed), and `main.go` has
no package-level declaration of them, so they are taken as parameters.
`calls` is ghost state that only `probe` and `probeAPI` write. -/
structure World where
  uuidSrc : Nat → UUID
  uuidCtr : Nat
  randSrc : Nat → Float64
  randCtr : Nat
  clockSrc : Nat → Int
  clockCtr : Nat
  log : List LogEvent
  bidPrice : Float64
  err : Option Error
  calls : List Call

/-- The call `uuid.New()`. -/
def uuidNew (w : World) : UUID × World :=
  (w.uuidSrc w.uuidCtr, { w with uuidCtr := w.uuidCtr + 1 })

/-- The call `rand.Float64()`. -/
def randFloat64 (w : World) : Float64 × World :=
  (w.randSrc w.randCtr, { w with randCtr := w.randCtr + 1 })

/-- The call `time.Now()`. -/
def timeNow (w : World) : Int × World :=
  (w.clockSrc w.clockCtr, { w with clockCtr := w.clockCtr + 1 })

/-- A `time.Duration`: the difference of two readings, saturated to int64 as
`Time.Sub` does. -/
def durationOf (d : Int) : Int :=
  if d < -(2 ^ 63) then -(2 ^ 63) else if 2 ^ 63 - 1 < d then 2 ^ 63 - 1 else d

/-- The call `time.Since(start)`, that is `time.Now().Sub(start)`. -/
def timeSince (start : Int) (w : World) : Int × World :=
  let (t, w1) := timeNow w
  (durationOf (t - start), w1)

/-- The call `slog.Info(msg, attrs...)`. -/
def slogInfo (msg : String) (attrs : List (String × AttrValue)) (w : World) : World :=
  { w with log := w.log ++ [⟨Level.info, msg, attrs⟩] }

/-- The call `slog.Error(msg, attrs...)`. -/
def slogError (msg : String) (attrs : List (String × AttrValue)) (w : World) : World :=
  { w with log := w.log ++ [⟨Level.error, msg, attrs⟩] }

/-! ## The services -/

/-- The interface `AddService`: one method `Add(uuid.UUID) (uuid.UUID, float64, error)`,
which may read and write the world. -/
structure AddService where
  Add : UUID → World → (UUID × Float64 × Option Error) × World

/-- The struct `loggingMiddleware`. -/
structure loggingMiddleware where
  next : AddService

/-- The method `loggingMiddleware.Add`.  The argument `time.Now()` of the
deferred call is evaluated at the `defer` statement, before `lm.next.Add(id)`;
the deferred body runs after `lm.next.Add(id)` has returned and before `Add`
itself returns, and cannot change the (unnamed) results. -/
def loggingMiddleware.Add (lm : loggingMiddleware) (id : UUID) (w : World) :
    (UUID × Float64 × Option Error) × World :=
  let (start, w1) := timeNow w
  let (res, w2) := lm.next.Add id w1
  let (took, w3) := timeSince start w2
  (res, slogInfo "addrequest"
    [("id", AttrValue.uuid id), ("bidPrice", AttrValue.float w3.bidPrice),
     ("err", AttrValue.err w3.err), ("took", AttrValue.duration took)] w3)

/-- The constructor `NewLoggingMiddleware`. -/
def NewLoggingMiddleware (svc : AddService) : AddService :=
  ⟨(loggingMiddleware.mk svc).Add⟩

/-- The (empty) struct `addService`. -/
structure addService where

/-- The method `addService.Add`. -/
def addService.Add (_s : addService) (_id : UUID) (w : World) :
    (UUID × Float64 × Option Error) × World :=
  let (n, w1) := randFloat64 w
  let (u, w2) := uuidNew w1
  ((u, fadd c6969 n, none), w2)

/-- The constructor `NewAddService`. -/
def NewAddService : AddService := ⟨(addService.mk).Add⟩

/-- Nesting of `n` layers of `NewLoggingMiddleware` around a service. -/
def layers : Nat → AddService → AddService
  | 0, svc => svc
  | n + 1, svc => NewLoggingMiddleware (layers n svc)

/-- A probe around a service: behaves as the service and then notes the call,
with its argument, in the ghost record. -/
def probe (svc : AddService) : AddService :=
  ⟨fun id w =>
    let (res, w1) := svc.Add id w
    (res, { w1 with calls := w1.calls ++ [Call.add id] })⟩

/-! ## HTTP -/

/-- The parts of an `*http.Request` a handler can look at: method, `URL.Path`
and body. -/
structure Request where
  method : String
  path : String
  body : String
  deriving DecidableEq, Repr

/-- Which implementation of `http.ResponseWriter` receives the response:
the response of the `net/http` server, which refuses a body when the status
forbids one, or `httptest.ResponseRecorder`, which records every write. -/
inductive WriterKind where
  | server
  | recorder
  deriving DecidableEq, Repr

/-- State of an `http.ResponseWriter`: the header map, the status passed to
the first `WriteHeader` (`none` while no header has been written) and the
bytes that `Write` has accepted. -/
structure ResponseWriter where
  kind : WriterKind
  header : List (String × String)
  status : Option Nat
  body : String
  deriving DecidableEq, Repr

/-- The writer a handler receives for a new request. -/
def ResponseWriter.fresh (kind : WriterKind) : ResponseWriter :=
  ⟨kind, [], none, ""⟩

/-- The call `w.Header().Set(key, value)` for a key in canonical form: the
entry for `key` is replaced. -/
def ResponseWriter.setHeader (w : ResponseWriter) (key value : String) : ResponseWriter :=
  { w with header := (key, value) :: w.header.filter (fun kv => kv.1 ≠ key) }

/-- The call `w.WriteHeader(status)`: the first call fixes the status, later
calls change nothing. -/
def ResponseWriter.WriteHeader (w : ResponseWriter) (status : Nat) : ResponseWriter :=
  match w.status with
  | none => { w with status := some status }
  | some _ => w

/-- The `net/http` rule `bodyAllowedForStatus`: no body with 1xx, 204, 304. -/
def bodyAllowedForStatus (status : Nat) : Bool :=
  if 100 ≤ status ∧ status ≤ 199 then false
  else if status = 204 then false
  else if status = 304 then false
  else true

/-- The error `http.ErrBodyNotAllowed`. -/
def ErrBodyNotAllowed : Error :=
  ⟨"http: request method or response status code does not allow body"⟩

/-- The call `w.Write(data)`, returning the error of the call.  Without a
preceding `WriteHeader` the status becomes 200; an empty write succeeds; the
server's writer returns `ErrBodyNotAllowed` and takes no byte when the status
forbids a body; otherwise the bytes are appended. -/
def ResponseWriter.Write (w : ResponseWriter) (data : String) : Option Error × ResponseWriter :=
  let w1 := match w.status with
    | none => w.WriteHeader 200
    | some _ => w
  if data = "" then (none, w1)
  else match w1.kind with
    | WriterKind.server =>
      if bodyAllowedForStatus (w1.status.getD 200) then (none, { w1 with body := w1.body ++ data })
      else (some ErrBodyNotAllowed, w1)
    | WriterKind.recorder => (none, { w1 with body := w1.body ++ data })

/-- The struct `AddRequest`. -/
structure AddRequest where
  AdPlacementID : UUID
  deriving DecidableEq, Repr

/-- The struct `AddResponse`. -/
structure AddResponse where
  AddID : UUID
  BidPrice : Float64
  deriving DecidableEq, Repr

/-- The text `strconv.FormatFloat(f, 'g', -1, 64)` of a float64 that is not
finite, as `json.UnsupportedValueError` reports it. -/
def nonFiniteText : Float64 → String
  | Float64.inf false => "+Inf"
  | Float64.inf true => "-Inf"
  | _ => "NaN"

/-- The JSON text that `encoding/json` produces for the value `writeJSON`
passes to `Encode`, a pointer to an `any` that is nil or holds an
`AddResponse`: `null` for nil, and for a response the object with the members
`addID` (the UUID text, a JSON string) and `bidPrice` (a JSON number), or an
`UnsupportedValueError` when the price is NaN or infinite.  `fmtFloat` is the
number formatting of `encoding/json` for finite float64 values. -/
def jsonMarshal (fmtFloat : Float64 → String) : Option AddResponse → Except Error String
  | none => Except.ok "null"
  | some resp =>
    if resp.BidPrice.isFinite then
      Except.ok ("\x7b\"addID\":\"" ++ resp.AddID.String ++ "\",\"bidPrice\":"
        ++ fmtFloat resp.BidPrice ++ "\x7d")
    else Except.error ⟨"json: unsupported value: " ++ nonFiniteText resp.BidPrice⟩

/-- The call `json.NewEncoder(w).Encode(&v)`: on a marshalling error nothing
is written and the error is returned; otherwise the JSON text followed by a
newline goes to `w.Write` in one call, whose error is returned. -/
def jsonEncode (fmtFloat : Float64 → String) (w : ResponseWriter) (v : Option AddResponse) :
    Option Error × ResponseWriter :=
  match jsonMarshal fmtFloat v with
  | Except.error e => (some e, w)
  | Except.ok text => w.Write (text ++ "\n")

/-- The function `writeJSON`. -/
def writeJSON (fmtFloat : Float64 → String) (w : ResponseWriter) (status : Nat)
    (v : Option AddResponse) : Option Error × ResponseWriter :=
  let w1 := w.setHeader "Content-Type" "application/json"
  let w2 := w1.WriteHeader status
  jsonEncode fmtFloat w2 v

/-- The struct `addRequestHandler`. -/
structure addRequestHandler where
  svc : AddService

/-- The constructor `NewAddrequestHandler`. -/
def NewAddrequestHandler (svc : AddService) : addRequestHandler := ⟨svc⟩

/-- The type `APIfunc`: a handler that returns an error. -/
abbrev APIfunc := ResponseWriter → Request → World → Option Error × ResponseWriter × World

/-- The type `http.HandlerFunc`: a handler that returns nothing. -/
abbrev HandlerFunc := ResponseWriter → Request → World → ResponseWriter × World

/-- The method `addRequestHandler.handleAddRequest`. -/
def addRequestHandler.handleAddRequest (fmtFloat : Float64 → String) (h : addRequestHandler) :
    APIfunc := fun w _r wd =>
  let (addID, wd1) := uuidNew wd
  let ((id, bidPrice, err), wd2) := h.svc.Add addID wd1
  match err with
  | some e =>
    let wd3 := slogError "add service returned non 200 response" [("err", AttrValue.err (some e))] wd2
    let (e1, w1) := writeJSON fmtFloat w 204 none
    (e1, w1, wd3)
  | none =>
    let resp : AddResponse := ⟨id, bidPrice⟩
    let (e1, w1) := writeJSON fmtFloat w 200 (some resp)
    (e1, w1, wd2)

/-- The function `makeHandler`. -/
def makeHandler (h : APIfunc) : HandlerFunc := fun w r wd =>
  let (err, w1, wd1) := h w r wd
  match err with
  | some e => (w1, slogError "API error" [("err", AttrValue.err (some e)), ("path", AttrValue.str r.path)] wd1)
  | none => (w1, wd1)

/-- A probe around an `APIfunc`: behaves as the function and then notes the
call in the ghost record. -/
def probeAPI (h : APIfunc) : APIfunc := fun w r wd =>
  let (err, w1, wd1) := h w r wd
  (err, w1, { wd1 with calls := wd1.calls ++ [Call.api r.path] })

/-- The service that `main` builds: the logging middleware over `addService`. -/
def mainService : AddService := NewLoggingMiddleware NewAddService

/-- The handler that `main` registers for `/add`: `makeHandler` over
`handleAddRequest` over the service of `main`. -/
def mainHandler (fmtFloat : Float64 → String) : HandlerFunc :=
  makeHandler ((NewAddrequestHandler mainService).handleAddRequest fmtFloat)

/-- Requests served one after another by a handler, each with a fresh writer
of the given kind; returns the finished writers in request order. -/
def serve (handler : HandlerFunc) (kind : WriterKind) : List Request → World →
    List ResponseWriter × World
  | [], wd => ([], wd)
  | r :: rs, wd =>
    let (w1, wd1) := handler (ResponseWriter.fresh kind) r wd
    let (ws, wd2) := serve handler kind rs wd1
    (w1 :: ws, wd2)

/-! ## Sample inputs -/

/-- A world whose identifier source yields 1000, 1001, ..., whose random
source always draws `draw`, whose clock advances by 10 ns per reading, with an
empty log and `bidPrice`, `err` bound to `0` and nil. -/
def sampleWorld (draw : Float64) : World :=
  ⟨fun i => UUID.ofNat (1000 + i), 0, fun _ => draw, 0, fun i => 10 * i, 0, [], f0, none, []⟩

/-- A test double for the service: always returns the given triple and leaves
the world alone. -/
def stubService (u : UUID) (p : Float64) (e : Option Error) : AddService :=
  ⟨fun _ w => ((u, p, e), w)⟩

/-- A stand-in for the number formatting of `encoding/json`, for evaluating
the handler on sample inputs: every price is printed as `70.19`. -/
def sampleFmt : Float64 → String := fun _ => "70.19"

/-- A sample request: a POST to `/add` carrying a placement identifier. -/
def sampleRequest : Request :=
  ⟨"POST", "/add", "\x7b\"addPlacementID\":\"3fa85f64-5717-4562-b3fc-2c963f66afa6\"\x7d"⟩

/-- A world with the clock advanced by `n` readings. -/
def advanceClock (n : Nat) (w : World) : World :=
  { w with clockCtr := w.clockCtr + n }

/-! ## Expected records, texts and states -/

/-- The record that `loggingMiddleware.Add` logs. -/
def addrequestEvent (id : UUID) (bidPrice : Float64) (err : Option Error) (took : Int) :
    LogEvent :=
  ⟨Level.info, "addrequest",
    [("id", AttrValue.uuid id), ("bidPrice", AttrValue.float bidPrice),
     ("err", AttrValue.err err), ("took", AttrValue.duration took)]⟩

/-- The record that `makeHandler` logs for an error. -/
def apiErrorEvent (e : Error) (path : String) : LogEvent :=
  ⟨Level.error, "API error", [("err", AttrValue.err (some e)), ("path", AttrValue.str path)]⟩

/-- The header map after `writeJSON` on a fresh writer. -/
def jsonHeader : List (String × String) := [("Content-Type", "application/json")]

/-- The record that `handleAddRequest` logs when the service fails. -/
def serviceErrorEvent (e : Error) : LogEvent :=
  ⟨Level.error, "add service returned non 200 response", [("err", AttrValue.err (some e))]⟩

/-- Position, in the 36-character text, of the `i`-th hexadecimal digit. -/
def digitPos (i : Nat) : Nat :=
  if i < 8 then i else if i < 12 then i + 1 else if i < 16 then i + 2
  else if i < 20 then i + 3 else i + 4

/-- The body of a successful response: the JSON object and a newline. -/
def responseBody (fmtFloat : Float64 → String) (id : UUID) (p : Float64) : String :=
  "\x7b\"addID\":\"" ++ id.String ++ "\",\"bidPrice\":" ++ fmtFloat p ++ "\x7d" ++ "\n"

/-- The identifier that the handler generates for the `j`-th request from `wd`. -/
def passedId (wd : World) (j : Nat) : UUID := wd.uuidSrc (wd.uuidCtr + 2 * j)

/-- The identifier that `addService.Add` generates for the `j`-th request. -/
def respId (wd : World) (j : Nat) : UUID := wd.uuidSrc (wd.uuidCtr + 2 * j + 1)

/-- The price of the `j`-th request. -/
def respPrice (wd : World) (j : Nat) : Float64 := fadd c6969 (wd.randSrc (wd.randCtr + j))

/-- The record logged by the middleware for the `j`-th request. -/
def requestEvent (wd : World) (j : Nat) : LogEvent :=
  addrequestEvent (passedId wd j) wd.bidPrice wd.err
    (durationOf (wd.clockSrc (wd.clockCtr + 2 * j + 1) - wd.clockSrc (wd.clockCtr + 2 * j)))

/-- The world after `n` requests served by the pipeline of `main`. -/
def afterRequests (wd : World) (n : Nat) : World :=
  { wd with
    uuidCtr := wd.uuidCtr + 2 * n
    randCtr := wd.randCtr + n
    clockCtr := wd.clockCtr + 2 * n
    log := wd.log ++ (List.range n).map (requestEvent wd) }

/-! ## Rounding lemmas -/

theorem bitLengthAux_zero (fuel : Nat) : bitLengthAux fuel 0 = 0 := by
  cases fuel <;> simp [bitLengthAux]

theorem bitLengthAux_eq (k : Nat) : ∀ fuel s : Nat, 2 ^ k ≤ s → s < 2 ^ (k + 1) → k + 1 ≤ fuel →
    bitLengthAux fuel s = k + 1 := by
  induction k with
  | zero =>
    intro fuel s h1 h2 hf
    have hs : s = 1 := by omega
    subst hs
    obtain ⟨f, rfl⟩ : ∃ f, fuel = f + 1 := ⟨fuel - 1, by omega⟩
    simp [bitLengthAux, bitLengthAux_zero]
  | succ k ih =>
    intro fuel s h1 h2 hf
    obtain ⟨f, rfl⟩ : ∃ f, fuel = f + 1 := ⟨fuel - 1, by omega⟩
    have hpos : 0 < 2 ^ k := Nat.two_pow_pos k
    have e1 : 2 ^ (k + 1) = 2 * 2 ^ k := by rw [pow_succ]; ring
    have e2 : 2 ^ (k + 1 + 1) = 2 * (2 * 2 ^ k) := by rw [pow_succ, pow_succ]; ring
    have hs0 : s ≠ 0 := by omega
    have hrec := ih f (s / 2) (by omega) (by omega) (by omega)
    simp [bitLengthAux, hs0, hrec]

theorem bitLength_eq (k s : Nat) (h1 : 2 ^ k ≤ s) (h2 : s < 2 ^ (k + 1)) :
    bitLength s = k + 1 := by
  have hk : k < 2 ^ k := Nat.lt_two_pow k
  exact bitLengthAux_eq k s s h1 h2 (by omega)

/-- In the binade of `69.69 + n`, rounding keeps a sum between the two
constants `69.69` and `70.69`. -/
theorem roundUnits_sum_bounds (u : Nat) (hu : u < 2 ^ 1074) :
    4903997781741404 * 2 ^ 1028 ≤ roundUnits (4903997781741404 * 2 ^ 1028 + u) ∧
    roundUnits (4903997781741404 * 2 ^ 1028 + u) ≤ 4974366525919068 * 2 ^ 1028 := by
  have hb : bitLength (4903997781741404 * 2 ^ 1028 + u) = 1080 + 1 :=
    bitLength_eq 1080 _ (by omega) (by omega)
  unfold roundUnits
  simp only [hb]
  have e : 1080 + 1 - 53 = 1028 := by norm_num
  rw [e]
  split_ifs <;> omega

/-- The constant `c6969` is a normalised double within half a unit in the last
place (`2^-47`) of 69.69, and lies below it. -/
theorem c6969_nearest :
    2 ^ 52 ≤ 4903997781741404 ∧ 4903997781741404 < 2 ^ 53 ∧
    100 * 4903997781741404 < 6969 * 2 ^ 46 ∧
    2 * (6969 * 2 ^ 46 - 100 * 4903997781741404) ≤ 100 := by
  decide

/-- The constant `c7069` is a normalised double within half a unit in the last
place (`2^-47`) of 70.69, and it is `c6969 + 1`. -/
theorem c7069_nearest :
    2 ^ 52 ≤ 4974366525919068 ∧ 4974366525919068 < 2 ^ 53 ∧
    2 * (7069 * 2 ^ 46 - 100 * 4974366525919068) ≤ 100 ∧
    fadd c6969 f1 = c7069 := by
  decide

/-- The draw `maxDraw` is a double (rounding leaves it as it is) below 1, and
the next double above it is 1. -/
theorem maxDraw_representable :
    roundUnits (2 ^ 1074 - 2 ^ 1021) = 2 ^ 1074 - 2 ^ 1021 ∧
    2 ^ 1074 - 2 ^ 1021 = (2 ^ 53 - 1) * 2 ^ 1021 ∧
    flt maxDraw f1 = true := by
  decide

/-- The sum `69.69 + n` for a draw `0 <= n < 1` is a finite double between
the two constants. -/
theorem fadd_c6969_bounds (n : Float64) (h0 : fle f0 n = true) (h1 : flt n f1 = true) :
    fle c6969 (fadd c6969 n) = true ∧ fle (fadd c6969 n) c7069 = true := by
  have key : ∀ u : Nat, u < 2 ^ 1074 →
      fle c6969 (ofExact false (4903997781741404 * 2 ^ 1028 + u)) = true ∧
      fle (ofExact false (4903997781741404 * 2 ^ 1028 + u)) c7069 = true := by
    intro u hu
    obtain ⟨hlo, hhi⟩ := roundUnits_sum_bounds u hu
    have hfin : ¬ 2 ^ 2098 ≤ roundUnits (4903997781741404 * 2 ^ 1028 + u) := by omega
    simp only [ofExact, hfin, if_false, fle, c6969, c7069, Float64.key, decide_eq_true_eq]
    constructor <;> omega
  cases n with
  | nan => exact absurd h0 (by simp only [fle, Float64.key]; exact Bool.false_ne_true)
  | inf s =>
    cases s
    · simp only [flt, f1, Float64.key, decide_eq_true_eq] at h1
      omega
    · simp only [fle, f0, Float64.key, decide_eq_true_eq] at h0
      omega
  | fin s u =>
    cases s
    · have hu : u < 2 ^ 1074 := by
        simp only [flt, f1, Float64.key, decide_eq_true_eq] at h1
        omega
      have e : fadd c6969 (Float64.fin false u)
          = ofExact false (4903997781741404 * 2 ^ 1028 + u) := by
        simp only [fadd, c6969, if_true]
      rw [e]
      exact key u hu
    · have hu : u = 0 := by
        simp only [fle, f0, Float64.key, decide_eq_true_eq] at h0
        omega
      subst hu
      have e : fadd c6969 (Float64.fin true 0)
          = ofExact false (4903997781741404 * 2 ^ 1028 + 0) := rfl
      rw [e]
      exact key 0 (by norm_num)

/-! ## The bid generator -/

/-- C8: `addService.Add` never fails: for every placement identifier and every
world (so every state of the random source) the error it returns is nil. -/
theorem addService_Add_error_nil (s : addService) (id : UUID) (w : World) :
    (s.Add id w).1.2.2 = none := rfl

/-- C2, as stated, fails: for the draw `n = 1 - 2^-53`, which satisfies
`0 <= n < 1`, the price `69.69 + n` returned by `addService.Add` is the double
`70.69` itself, so `p < 70.69` is false. -/
theorem addService_Add_price_reaches_7069 :
    fle f0 maxDraw = true ∧ flt maxDraw f1 = true ∧
    ((addService.mk).Add (UUID.ofNat 7) (sampleWorld maxDraw)).1.2.1 = c7069 ∧
    flt ((addService.mk).Add (UUID.ofNat 7) (sampleWorld maxDraw)).1.2.1 c7069 = false := by
  decide

/-- C2, amended: for every placement identifier and every draw `n` of the
random source with `0 <= n < 1`, the price `p` returned by `addService.Add`
equals the float64 sum `69.69 + n` and satisfies `69.69 <= p <= 70.69`. -/
theorem addService_Add_price_range (s : addService) (id : UUID) (w : World)
    (h0 : fle f0 (w.randSrc w.randCtr) = true) (h1 : flt (w.randSrc w.randCtr) f1 = true) :
    (s.Add id w).1.2.1 = fadd c6969 (w.randSrc w.randCtr) ∧
    fle c6969 (s.Add id w).1.2.1 = true ∧ fle (s.Add id w).1.2.1 c7069 = true :=
  ⟨rfl, fadd_c6969_bounds _ h0 h1⟩

/-- Witness of `addService_Add_price_range` at the largest draw. -/
theorem addService_Add_price_range_witness :
    fle f0 ((sampleWorld maxDraw).randSrc (sampleWorld maxDraw).randCtr) = true ∧
    flt ((sampleWorld maxDraw).randSrc (sampleWorld maxDraw).randCtr) f1 = true ∧
    ((addService.mk).Add (UUID.ofNat 7) (sampleWorld maxDraw)).1.2.1
      = fadd c6969 ((sampleWorld maxDraw).randSrc (sampleWorld maxDraw).randCtr) ∧
    fle c6969 ((addService.mk).Add (UUID.ofNat 7) (sampleWorld maxDraw)).1.2.1 = true ∧
    fle ((addService.mk).Add (UUID.ofNat 7) (sampleWorld maxDraw)).1.2.1 c7069 = true :=
  ⟨by decide, by decide,
    addService_Add_price_range addService.mk (UUID.ofNat 7) (sampleWorld maxDraw)
      (by decide) (by decide)⟩

/-! ## The logging middleware -/

/-- One layer of middleware: the wrapped service runs once, on the world after
one clock reading, and its results are returned as they are. -/
theorem loggingMiddleware_Add_result (svc : AddService) (id : UUID) (w : World) :
    ((NewLoggingMiddleware svc).Add id w).1 = (svc.Add id (advanceClock 1 w)).1 := rfl

/-- One layer of middleware leaves the ghost call record of the wrapped call
as it is. -/
theorem loggingMiddleware_Add_calls (svc : AddService) (id : UUID) (w : World) :
    ((NewLoggingMiddleware svc).Add id w).2.calls = (svc.Add id (advanceClock 1 w)).2.calls := rfl

theorem advanceClock_add (m n : Nat) (w : World) :
    advanceClock m (advanceClock n w) = advanceClock (n + m) w := by
  simp [advanceClock, Nat.add_assoc]

/-- With `n` layers the wrapped service runs on the world after `n` clock
readings; results and ghost call record are those of that one run. -/
theorem layers_Add (svc : AddService) (id : UUID) (n : Nat) : ∀ w : World,
    ((layers n svc).Add id w).1 = (svc.Add id (advanceClock n w)).1 ∧
    ((layers n svc).Add id w).2.calls = (svc.Add id (advanceClock n w)).2.calls := by
  induction n with
  | zero => intro w; exact ⟨rfl, rfl⟩
  | succ n ih =>
    intro w
    have h := ih (advanceClock 1 w)
    rw [advanceClock_add, Nat.add_comm 1 n] at h
    exact ⟨(loggingMiddleware_Add_result (layers n svc) id w).trans h.1,
      (loggingMiddleware_Add_calls (layers n svc) id w).trans h.2⟩

/-- C4: the logging decorator is transparent.  For every service, identifier
and number `n` of nested `NewLoggingMiddleware` layers (in particular every
`n >= 1`), `Add(id)` on the wrapped service returns exactly the triple that
the service returned for `id` in this call (on the world it was run in, which
is the caller's after the `n` clock readings of the layers), whether its error
is nil or not; and with a probe on the service, the call record gains exactly
one entry over what the service itself left, and that entry carries `id`: the
service is invoked exactly once, with the same identifier. -/
theorem layers_transparent (svc : AddService) (id : UUID) (n : Nat) (w : World) :
    ((layers n svc).Add id w).1 = (svc.Add id (advanceClock n w)).1 ∧
    ((layers n (probe svc)).Add id w).1 = (svc.Add id (advanceClock n w)).1 ∧
    ((layers n (probe svc)).Add id w).2.calls
      = (svc.Add id (advanceClock n w)).2.calls ++ [Call.add id] :=
  ⟨(layers_Add svc id n w).1, (layers_Add (probe svc) id n w).1, (layers_Add (probe svc) id n w).2⟩

/-- The log after one call of `loggingMiddleware.Add`: what the wrapped call
left, followed by exactly one record, which carries `id`, the values bound to
`bidPrice` and `err` when the wrapped call has returned, and the time between
the reading taken before the wrapped call and a reading taken after it. -/
theorem loggingMiddleware_Add_log (lm : loggingMiddleware) (id : UUID) (w : World) :
    (lm.Add id w).2.log
      = (lm.next.Add id (advanceClock 1 w)).2.log ++
        [addrequestEvent id (lm.next.Add id (advanceClock 1 w)).2.bidPrice
          (lm.next.Add id (advanceClock 1 w)).2.err
          (durationOf ((lm.next.Add id (advanceClock 1 w)).2.clockSrc
              (lm.next.Add id (advanceClock 1 w)).2.clockCtr - w.clockSrc w.clockCtr))] := rfl

/-- C7 at a failing input: the wrapped service returns the price `70.69` and
the error `boom`, and the one record logged by `loggingMiddleware.Add` carries
the identifier and the elapsed time, but the price `0` and a nil error: the
values bound to `bidPrice` and `err`, not the results of the call. -/
theorem loggingMiddleware_Add_logs_unrelated_fields :
    ((loggingMiddleware.mk (stubService (UUID.ofNat 5) c7069 (some ⟨"boom"⟩))).Add
        (UUID.ofNat 9) (sampleWorld f0)).1 = (UUID.ofNat 5, c7069, some ⟨"boom"⟩) ∧
    ((loggingMiddleware.mk (stubService (UUID.ofNat 5) c7069 (some ⟨"boom"⟩))).Add
        (UUID.ofNat 9) (sampleWorld f0)).2.log
      = [⟨Level.info, "addrequest",
          [("id", AttrValue.uuid (UUID.ofNat 9)), ("bidPrice", AttrValue.float f0),
           ("err", AttrValue.err none), ("took", AttrValue.duration 10)]⟩] := by
  decide

/-! ## The error adapter -/

/-- C9: for every `APIfunc` `h` and every request, `makeHandler(h)` returns no
error (by its type) and leaves the response exactly as `h` left it; when `h`
returns nil the world is exactly as `h` left it (no log record), when `h`
returns an error `e` the log gains exactly one record, at error level, with
`e` and the request's URL path; and with a probe on `h` the call record gains
exactly one entry: `h` is called exactly once. -/
theorem makeHandler_spec (h : APIfunc) (w : ResponseWriter) (r : Request) (wd : World) :
    (makeHandler h w r wd).1 = (h w r wd).2.1 ∧
    (makeHandler h w r wd).2
      = (match (h w r wd).1 with
         | none => (h w r wd).2.2
         | some e => { (h w r wd).2.2 with log := (h w r wd).2.2.log ++ [apiErrorEvent e r.path] }) ∧
    (makeHandler (probeAPI h) w r wd).2.calls = (h w r wd).2.2.calls ++ [Call.api r.path] := by
  unfold makeHandler probeAPI
  cases hres : (h w r wd).1 <;> simp [hres, slogError, apiErrorEvent]

/-! ## The request handler -/

/-- A text followed by a newline is not empty. -/
theorem append_newline_ne_empty (t : String) : t ++ "\n" ≠ "" := by
  intro h
  have h2 := congrArg String.length h
  simp only [String.length_append] at h2
  have h3 : "\n".length = 1 := rfl
  have h4 : "".length = 0 := rfl
  omega

/-- What `writeJSON` does with status 200 and a finite price on a fresh writer. -/
theorem writeJSON_ok (fmtFloat : Float64 → String) (kind : WriterKind) (id : UUID) (p : Float64)
    (hp : p.isFinite = true) :
    writeJSON fmtFloat (ResponseWriter.fresh kind) 200 (some ⟨id, p⟩)
      = (none, ⟨kind, jsonHeader, some 200,
          "\x7b\"addID\":\"" ++ id.String ++ "\",\"bidPrice\":" ++ fmtFloat p ++ "\x7d" ++ "\n"⟩) := by
  cases kind <;>
    simp [writeJSON, jsonEncode, jsonMarshal, hp, ResponseWriter.fresh, ResponseWriter.setHeader,
      ResponseWriter.WriteHeader, ResponseWriter.Write, append_newline_ne_empty, jsonHeader,
      bodyAllowedForStatus]

/-- C1, as stated, fails: a service that returns `(id, NaN, nil)` makes
`handleAddRequest` write status 200 and the content type but no body at all,
and return the encoder's error, since NaN has no JSON encoding. -/
theorem handleAddRequest_nan_price_no_body :
    ((NewAddrequestHandler (stubService (UUID.ofNat 5) Float64.nan none)).handleAddRequest
        sampleFmt (ResponseWriter.fresh WriterKind.server) sampleRequest (sampleWorld f0)).2.1
      = ⟨WriterKind.server, jsonHeader, some 200, ""⟩ ∧
    ((NewAddrequestHandler (stubService (UUID.ofNat 5) Float64.nan none)).handleAddRequest
        sampleFmt (ResponseWriter.fresh WriterKind.server) sampleRequest (sampleWorld f0)).1
      = some ⟨"json: unsupported value: NaN"⟩ := by
  decide

/-- C1, amended: for every service whose `Add` returns `(id, p, nil)` with `p`
finite (neither NaN nor infinite) and for every request, `handleAddRequest`
on a fresh response writer returns nil and leaves status 200, the header
`Content-Type: application/json` and as body the JSON object with the members
`addID` (the text of `id`) and `bidPrice` (`p`), followed by a newline, where
`id` and `p` are the values the service returned, not the identifier the
handler generated. -/
theorem handleAddRequest_success (fmtFloat : Float64 → String) (svc : AddService)
    (kind : WriterKind) (r : Request) (wd : World) (id : UUID) (p : Float64)
    (hsvc : (svc.Add (uuidNew wd).1 (uuidNew wd).2).1 = (id, p, none))
    (hp : p.isFinite = true) :
    ((NewAddrequestHandler svc).handleAddRequest fmtFloat (ResponseWriter.fresh kind) r wd).1
      = none ∧
    ((NewAddrequestHandler svc).handleAddRequest fmtFloat (ResponseWriter.fresh kind) r wd).2.1
      = ⟨kind, jsonHeader, some 200,
          "\x7b\"addID\":\"" ++ id.String ++ "\",\"bidPrice\":" ++ fmtFloat p ++ "\x7d" ++ "\n"⟩ := by
  have hw := writeJSON_ok fmtFloat kind id p hp
  rcases hres : svc.Add (uuidNew wd).1 (uuidNew wd).2 with ⟨res, wd2⟩
  rw [hres] at hsvc
  simp only at hsvc
  subst hsvc
  simp only [addRequestHandler.handleAddRequest, NewAddrequestHandler, hres, hw]
  exact ⟨trivial, trivial⟩

/-- Witness of `handleAddRequest_success`: a service returning the price 70.69. -/
theorem handleAddRequest_success_witness :
    ((stubService (UUID.ofNat 5) c7069 none).Add (uuidNew (sampleWorld f0)).1
        (uuidNew (sampleWorld f0)).2).1 = (UUID.ofNat 5, c7069, none) ∧
    c7069.isFinite = true ∧
    ((NewAddrequestHandler (stubService (UUID.ofNat 5) c7069 none)).handleAddRequest sampleFmt
        (ResponseWriter.fresh WriterKind.server) sampleRequest (sampleWorld f0)).1 = none ∧
    ((NewAddrequestHandler (stubService (UUID.ofNat 5) c7069 none)).handleAddRequest sampleFmt
        (ResponseWriter.fresh WriterKind.server) sampleRequest (sampleWorld f0)).2.1
      = ⟨WriterKind.server, jsonHeader, some 200,
          "\x7b\"addID\":\"" ++ (UUID.ofNat 5).String ++ "\",\"bidPrice\":" ++ sampleFmt c7069
            ++ "\x7d" ++ "\n"⟩ :=
  ⟨rfl, rfl,
    handleAddRequest_success sampleFmt (stubService (UUID.ofNat 5) c7069 none) WriterKind.server
      sampleRequest (sampleWorld f0) (UUID.ofNat 5) c7069 rfl rfl⟩

/-- What `writeJSON` does with status 204 and a nil value on a fresh writer:
the text `null` and a newline go to `Write`; a recorder takes them, the
server's writer refuses them with `ErrBodyNotAllowed`. -/
theorem writeJSON_nil (fmtFloat : Float64 → String) :
    writeJSON fmtFloat (ResponseWriter.fresh WriterKind.recorder) 204 none
      = (none, ⟨WriterKind.recorder, jsonHeader, some 204, "null\n"⟩) ∧
    writeJSON fmtFloat (ResponseWriter.fresh WriterKind.server) 204 none
      = (some ErrBodyNotAllowed, ⟨WriterKind.server, jsonHeader, some 204, ""⟩) := by
  constructor <;> rfl

/-- What `handleAddRequest` does when the service returns an error `e`: one
error record with `e` is logged after what the service logged; with a
recording writer the response is a 204 with the body `null` plus newline and
the handler returns nil; with the writer of the server the response is a 204
with an empty body and the handler returns `ErrBodyNotAllowed`. -/
theorem handleAddRequest_failure (fmtFloat : Float64 → String) (svc : AddService) (r : Request)
    (wd : World) (id : UUID) (p : Float64) (e : Error)
    (hsvc : (svc.Add (uuidNew wd).1 (uuidNew wd).2).1 = (id, p, some e)) :
    (NewAddrequestHandler svc).handleAddRequest fmtFloat
        (ResponseWriter.fresh WriterKind.recorder) r wd
      = (none, ⟨WriterKind.recorder, jsonHeader, some 204, "null\n"⟩,
         slogError "add service returned non 200 response" [("err", AttrValue.err (some e))]
           (svc.Add (uuidNew wd).1 (uuidNew wd).2).2) ∧
    (NewAddrequestHandler svc).handleAddRequest fmtFloat
        (ResponseWriter.fresh WriterKind.server) r wd
      = (some ErrBodyNotAllowed, ⟨WriterKind.server, jsonHeader, some 204, ""⟩,
         slogError "add service returned non 200 response" [("err", AttrValue.err (some e))]
           (svc.Add (uuidNew wd).1 (uuidNew wd).2).2) := by
  obtain ⟨h1, h2⟩ := writeJSON_nil fmtFloat
  rcases hres : svc.Add (uuidNew wd).1 (uuidNew wd).2 with ⟨res, wd2⟩
  rw [hres] at hsvc
  simp only at hsvc
  subst hsvc
  simp only [addRequestHandler.handleAddRequest, NewAddrequestHandler, hres, h1, h2]
  exact ⟨trivial, trivial⟩

/-- C3 at a failing input: with a service that returns the error `boom` and a
recording response writer, `handleAddRequest` writes status 204 and the five
bytes `null` plus newline as body, not zero bytes; with the server's writer
the same five bytes are handed to `Write`, which refuses them, so the body
stays empty and the handler returns `ErrBodyNotAllowed`. -/
theorem handleAddRequest_service_error_writes_null :
    ((NewAddrequestHandler (stubService (UUID.ofNat 5) f0 (some ⟨"boom"⟩))).handleAddRequest
        sampleFmt (ResponseWriter.fresh WriterKind.recorder) sampleRequest (sampleWorld f0)).2.1
      = ⟨WriterKind.recorder, jsonHeader, some 204, "null\n"⟩ ∧
    ((NewAddrequestHandler (stubService (UUID.ofNat 5) f0 (some ⟨"boom"⟩))).handleAddRequest
        sampleFmt (ResponseWriter.fresh WriterKind.recorder) sampleRequest (sampleWorld f0)).1
      = none ∧
    ((NewAddrequestHandler (stubService (UUID.ofNat 5) f0 (some ⟨"boom"⟩))).handleAddRequest
        sampleFmt (ResponseWriter.fresh WriterKind.server) sampleRequest (sampleWorld f0)).2.1
      = ⟨WriterKind.server, jsonHeader, some 204, ""⟩ ∧
    ((NewAddrequestHandler (stubService (UUID.ofNat 5) f0 (some ⟨"boom"⟩))).handleAddRequest
        sampleFmt (ResponseWriter.fresh WriterKind.server) sampleRequest (sampleWorld f0)).1
      = some ErrBodyNotAllowed := by
  decide

/-- C10 at a failing input: with a test double that returns the error `boom`
and the server's response writer, `makeHandler(handleAddRequest)` emits two
error-level records, the second carrying `ErrBodyNotAllowed` rather than
`boom`; with a recording writer it emits the first one only. -/
theorem makeHandler_service_error_two_events :
    (makeHandler ((NewAddrequestHandler (stubService (UUID.ofNat 5) f0
        (some ⟨"boom"⟩))).handleAddRequest sampleFmt)
      (ResponseWriter.fresh WriterKind.server) sampleRequest (sampleWorld f0)).2.log
      = [serviceErrorEvent ⟨"boom"⟩, apiErrorEvent ErrBodyNotAllowed "/add"] ∧
    (makeHandler ((NewAddrequestHandler (stubService (UUID.ofNat 5) f0
        (some ⟨"boom"⟩))).handleAddRequest sampleFmt)
      (ResponseWriter.fresh WriterKind.recorder) sampleRequest (sampleWorld f0)).2.log
      = [serviceErrorEvent ⟨"boom"⟩] := by
  decide

/-- The call `Write` leaves a status that was set and sets 200 otherwise. -/
theorem Write_status (w : ResponseWriter) (data : String) :
    (w.Write data).2.status = some (w.status.getD 200) := by
  rcases w with ⟨kind, hdr, st, body⟩
  cases st <;> cases kind <;> simp only [ResponseWriter.Write, ResponseWriter.WriteHeader] <;>
    split_ifs <;> rfl

/-- On a fresh writer `writeJSON` leaves the status it was given, whatever the
value and whether or not encoding and writing succeed. -/
theorem writeJSON_status (fmtFloat : Float64 → String) (kind : WriterKind) (status : Nat)
    (v : Option AddResponse) :
    (writeJSON fmtFloat (ResponseWriter.fresh kind) status v).2.status = some status := by
  unfold writeJSON jsonEncode
  cases jsonMarshal fmtFloat v with
  | error e => rfl
  | ok text => exact Write_status _ _

/-- C5: the request never influences the outcome.  For every two requests
(of any method, path and body), `handleAddRequest` run with the same service,
writer and world returns the same error, response (status, headers, body) and
world; the identifier it passes to the service is the one freshly drawn from
the identifier source, as the entry a probe on the service records shows; and
with the service wired as in `main` a fresh writer ends with status 200 for
every request. -/
theorem handleAddRequest_ignores_request (fmtFloat : Float64 → String) (svc : AddService)
    (w : ResponseWriter) (kind : WriterKind) (r1 r2 : Request) (wd : World) :
    (NewAddrequestHandler svc).handleAddRequest fmtFloat w r1 wd
      = (NewAddrequestHandler svc).handleAddRequest fmtFloat w r2 wd ∧
    ((NewAddrequestHandler (probe svc)).handleAddRequest fmtFloat w r1 wd).2.2.calls
      = (svc.Add (wd.uuidSrc wd.uuidCtr) (uuidNew wd).2).2.calls
          ++ [Call.add (wd.uuidSrc wd.uuidCtr)] ∧
    ((NewAddrequestHandler mainService).handleAddRequest fmtFloat
        (ResponseWriter.fresh kind) r1 wd).2.1.status = some 200 := by
  refine ⟨rfl, ?_, ?_⟩
  · change _ = (svc.Add (uuidNew wd).1 (uuidNew wd).2).2.calls ++ [Call.add (uuidNew wd).1]
    rcases hres : svc.Add (uuidNew wd).1 (uuidNew wd).2 with ⟨⟨id, p, e⟩, wd2⟩
    cases e <;>
      simp only [addRequestHandler.handleAddRequest, NewAddrequestHandler, probe, hres, slogError]
  · exact writeJSON_status fmtFloat kind 200 _

/-! ## The text form of identifiers -/

theorem hexDigit_inj : ∀ a, a < 16 → ∀ b, b < 16 → hexDigit a = hexDigit b → a = b := by
  decide

theorem charAt_digitPos (u : UUID) (i : Nat) (hi : i < 32) :
    u.charAt (digitPos i) = hexDigit (u.nibble i) := by
  interval_cases i <;> rfl

theorem mod_pow_eq_of_digits (a b : Nat) : ∀ k : Nat,
    (∀ i, i < k → (a / 16 ^ i) % 16 = (b / 16 ^ i) % 16) → a % 16 ^ k = b % 16 ^ k := by
  intro k
  induction k with
  | zero => intro _; simp [Nat.mod_one]
  | succ k ih =>
    intro h
    rw [Nat.mod_pow_succ, Nat.mod_pow_succ, ih (fun i hi => h i (by omega)), h k (by omega)]

/-- Distinct identifiers have distinct texts. -/
theorem UUID_String_injective (u v : UUID) (h : u.String = v.String) : u = v := by
  have hl : (List.range 36).map u.charAt = (List.range 36).map v.charAt :=
    congrArg String.data h
  have hc : ∀ j, j < 36 → u.charAt j = v.charAt j := by
    intro j hj
    exact (List.map_inj_left.mp hl) j (List.mem_range.mpr hj)
  have hn : ∀ i, i < 32 → (u.val / 16 ^ i) % 16 = (v.val / 16 ^ i) % 16 := by
    intro i hi
    have hpos : digitPos (31 - i) < 36 := by
      unfold digitPos
      split_ifs <;> omega
    have h1 := hc (digitPos (31 - i)) hpos
    rw [charAt_digitPos u _ (by omega), charAt_digitPos v _ (by omega)] at h1
    have h2 := hexDigit_inj _ (Nat.mod_lt _ (by norm_num)) _ (Nat.mod_lt _ (by norm_num)) h1
    have e : 31 - (31 - i) = i := by omega
    simpa [UUID.nibble, e] using h2
  have hm := mod_pow_eq_of_digits u.val v.val 32 hn
  have hu := u.isLt
  have hv := v.isLt
  have e : (16 : Nat) ^ 32 = 2 ^ 128 := by norm_num
  rw [e, Nat.mod_eq_of_lt hu, Nat.mod_eq_of_lt hv] at hm
  rcases u with ⟨a, ha⟩
  rcases v with ⟨b, hb⟩
  simp only at hm
  subst hm
  rfl

/-! ## The pipeline of `main` over a sequence of requests -/

/-- A double between the constants `69.69` and `70.69` is finite. -/
theorem isFinite_of_bounds (p : Float64) (h1 : fle c6969 p = true) (h2 : fle p c7069 = true) :
    p.isFinite = true := by
  cases p with
  | fin s u => rfl
  | nan => exact absurd h1 (by simp only [fle, Float64.key]; exact Bool.false_ne_true)
  | inf s =>
    cases s
    · simp only [fle, c7069, Float64.key, decide_eq_true_eq] at h2
      omega
    · simp only [fle, c6969, Float64.key, decide_eq_true_eq] at h1
      omega

/-- One request through the pipeline of `main`, for a draw in `[0, 1)`. -/
theorem mainHandler_step (fmtFloat : Float64 → String) (kind : WriterKind) (r : Request)
    (wd : World) (h0 : fle f0 (wd.randSrc wd.randCtr) = true)
    (h1 : flt (wd.randSrc wd.randCtr) f1 = true) :
    mainHandler fmtFloat (ResponseWriter.fresh kind) r wd
      = (⟨kind, jsonHeader, some 200, responseBody fmtFloat (respId wd 0) (respPrice wd 0)⟩,
         afterRequests wd 1) := by
  have hb := fadd_c6969_bounds _ h0 h1
  have hp := isFinite_of_bounds _ hb.1 hb.2
  have hw := writeJSON_ok fmtFloat kind (wd.uuidSrc (wd.uuidCtr + 1))
    (fadd c6969 (wd.randSrc wd.randCtr)) hp
  simp only [mainHandler, mainService, makeHandler, addRequestHandler.handleAddRequest,
    NewAddrequestHandler, NewLoggingMiddleware, loggingMiddleware.Add, NewAddService, addService.Add, uuidNew,
    randFloat64, timeNow, timeSince, slogInfo, hw]
  have hr : List.range 1 = [0] := rfl
  simp [afterRequests, requestEvent, passedId, respId, respPrice, responseBody, addrequestEvent, hr]

theorem afterRequests_succ (wd : World) (n : Nat) :
    afterRequests (afterRequests wd 1) n = afterRequests wd (n + 1) := by
  have hr : List.range 1 = [0] := rfl
  have hev : ∀ j, requestEvent (afterRequests wd 1) j = requestEvent wd (j + 1) := by
    intro j
    simp only [requestEvent, passedId, afterRequests]
    have e1 : wd.uuidCtr + 2 * 1 + 2 * j = wd.uuidCtr + 2 * (j + 1) := by omega
    have e2 : wd.clockCtr + 2 * 1 + 2 * j = wd.clockCtr + 2 * (j + 1) := by omega
    rw [e1, e2]
  have hl : (List.range (n + 1)).map (requestEvent wd)
      = requestEvent wd 0 :: (List.range n).map (requestEvent (afterRequests wd 1)) := by
    rw [List.range_succ_eq_map, List.map_cons, List.map_map]
    congr 1
    apply List.map_congr_left
    intro j _
    exact (hev j).symm
  have e3 : wd.uuidCtr + 2 * 1 + 2 * n = wd.uuidCtr + 2 * (n + 1) := by omega
  have e4 : wd.randCtr + 1 + n = wd.randCtr + (n + 1) := by omega
  have e5 : wd.clockCtr + 2 * 1 + 2 * n = wd.clockCtr + 2 * (n + 1) := by omega
  simp only [afterRequests, hr, List.map_cons, List.map_nil, List.append_assoc, List.singleton_append]
  rw [hl, e3, e4, e5]
  rfl

/-- The pipeline of `main` over a sequence of requests whose draws lie in
`[0, 1)`: every response is a 200 with the identifier and price that
`addService.Add` produced for it, and the world advances by two identifiers,
one draw, two clock readings and one log record per request. -/
theorem serve_main (fmtFloat : Float64 → String) (kind : WriterKind) :
    ∀ (reqs : List Request) (wd : World),
    (∀ j, j < reqs.length → fle f0 (wd.randSrc (wd.randCtr + j)) = true ∧
      flt (wd.randSrc (wd.randCtr + j)) f1 = true) →
    serve (mainHandler fmtFloat) kind reqs wd
      = ((List.range reqs.length).map (fun j =>
            (⟨kind, jsonHeader, some 200,
              responseBody fmtFloat (respId wd j) (respPrice wd j)⟩ : ResponseWriter)),
         afterRequests wd reqs.length) := by
  intro reqs
  induction reqs with
  | nil =>
    intro wd _
    simp [serve, afterRequests]
  | cons r rs ih =>
    intro wd hd
    have hd0 := hd 0 (by simp)
    have hstep := mainHandler_step fmtFloat kind r wd hd0.1 hd0.2
    have hrec := ih (afterRequests wd 1) (by
      intro j hj
      have h := hd (j + 1) (by simpa using hj)
      have e : wd.randCtr + (j + 1) = wd.randCtr + 1 + j := by omega
      rw [e] at h
      exact h)
    simp only [serve, hstep, hrec, List.length_cons, afterRequests_succ]
    rw [List.range_succ_eq_map, List.map_cons, List.map_map]
    congr 2
    apply List.map_congr_left
    intro j _
    simp only [Function.comp, respId, respPrice, afterRequests]
    have e1 : wd.uuidCtr + 2 * 1 + 2 * j + 1 = wd.uuidCtr + 2 * (j + 1) + 1 := by omega
    have e2 : wd.randCtr + 1 + j = wd.randCtr + (j + 1) := by omega
    rw [e1, e2]

/-- C6: identifiers are never reused.  For every sequence of requests served
one after another by the pipeline wired as in `main`, if the identifier
source does not yield the same value twice during the run (and the draws of
the random source lie in `[0, 1)`, as those of `rand.Float64` do), then the
`j`-th response
is a 200 whose body carries the identifier `respId wd j`, the log shows that
the handler passed `passedId wd j` to the service, and every response
identifier differs from every identifier the handler passed and from the
identifier, and the identifier text, of every other response. -/
theorem serve_identifiers_never_reused (fmtFloat : Float64 → String) (kind : WriterKind)
    (reqs : List Request) (wd : World)
    (hinj : ∀ i j, i < 2 * reqs.length → j < 2 * reqs.length →
      wd.uuidSrc (wd.uuidCtr + i) = wd.uuidSrc (wd.uuidCtr + j) → i = j)
    (hdraw : ∀ j, j < reqs.length → fle f0 (wd.randSrc (wd.randCtr + j)) = true ∧
      flt (wd.randSrc (wd.randCtr + j)) f1 = true) :
    (serve (mainHandler fmtFloat) kind reqs wd).1
      = (List.range reqs.length).map (fun j =>
          (⟨kind, jsonHeader, some 200,
            responseBody fmtFloat (respId wd j) (respPrice wd j)⟩ : ResponseWriter)) ∧
    (serve (mainHandler fmtFloat) kind reqs wd).2.log
      = wd.log ++ (List.range reqs.length).map (requestEvent wd) ∧
    (∀ j k, j < reqs.length → k < reqs.length →
      respId wd j ≠ passedId wd k ∧
      (j ≠ k → respId wd j ≠ respId wd k ∧ (respId wd j).String ≠ (respId wd k).String)) := by
  have hs := serve_main fmtFloat kind reqs wd hdraw
  refine ⟨by rw [hs], by rw [hs]; rfl, ?_⟩
  intro j k hj hk
  have hne : ∀ a b, a < 2 * reqs.length → b < 2 * reqs.length → a ≠ b →
      wd.uuidSrc (wd.uuidCtr + a) ≠ wd.uuidSrc (wd.uuidCtr + b) :=
    fun a b ha hb hab h => hab (hinj a b ha hb h)
  refine ⟨?_, ?_⟩
  · have h := hne (2 * j + 1) (2 * k) (by omega) (by omega) (by omega)
    simpa [respId, passedId, Nat.add_assoc] using h
  · intro hjk
    have h := hne (2 * j + 1) (2 * k + 1) (by omega) (by omega) (by omega)
    have h2 : respId wd j ≠ respId wd k := by
      simpa [respId, Nat.add_assoc] using h
    exact ⟨h2, fun hstr => h2 (UUID_String_injective _ _ hstr)⟩

/-- Witness of `serve_identifiers_never_reused`: two identical requests. -/
theorem serve_identifiers_never_reused_witness :
    (serve (mainHandler sampleFmt) WriterKind.server [sampleRequest, sampleRequest]
        (sampleWorld f0)).1
      = [⟨WriterKind.server, jsonHeader, some 200,
            responseBody sampleFmt (UUID.ofNat 1001) c6969⟩,
         ⟨WriterKind.server, jsonHeader, some 200,
            responseBody sampleFmt (UUID.ofNat 1003) c6969⟩] ∧
    respId (sampleWorld f0) 0 ≠ respId (sampleWorld f0) 1 ∧
    respId (sampleWorld f0) 1 ≠ passedId (sampleWorld f0) 0 := by
  have hinj : ∀ i j, i < 2 * [sampleRequest, sampleRequest].length →
      j < 2 * [sampleRequest, sampleRequest].length →
      (sampleWorld f0).uuidSrc ((sampleWorld f0).uuidCtr + i)
        = (sampleWorld f0).uuidSrc ((sampleWorld f0).uuidCtr + j) → i = j := by
    intro i j hi hj h
    have hv := congrArg UUID.val h
    simp only [sampleWorld, UUID.ofNat, List.length_cons, List.length_nil] at hv hi hj
    omega
  have hdraw : ∀ j, j < [sampleRequest, sampleRequest].length →
      fle f0 ((sampleWorld f0).randSrc ((sampleWorld f0).randCtr + j)) = true ∧
      flt ((sampleWorld f0).randSrc ((sampleWorld f0).randCtr + j)) f1 = true := by
    intro j _
    show fle f0 f0 = true ∧ flt f0 f1 = true
    decide
  have h := serve_identifiers_never_reused sampleFmt WriterKind.server
    [sampleRequest, sampleRequest] (sampleWorld f0) hinj hdraw
  refine ⟨?_, (h.2.2 0 1 (by decide) (by decide)).2 (by decide) |>.1,
    (h.2.2 1 0 (by decide) (by decide)).1⟩
  rw [h.1]
  decide

end AddSvc
